import Mathlib

/-
Verification of the PostgreSQL DDL translation layer
(internal/postgresql/parse.go).

The Go source is shallowly embedded: the normalized AST types (package
`ast`) and the relevant subset of the external parser's node vocabulary
(package `nodes`, from pg_query_go) become Lean structures and inductives;
the translation functions `stringSlice`, `join`, `parseTableName`,
`translate` and the statement loop of `Parser.Parse` become Lean
functions over those types.

Go's dual-channel failure model is kept: a function returning
`(T, error)` is embedded as `GoResult T`, whose `err` constructor models
`return nil, err` (a returned, recoverable error) and whose `panic`
constructor models a runtime panic (failed type assertion, nil pointer
dereference) — a defect-level fault that is not a returned error.
-/

set_option autoImplicit false

namespace ast

/-- `ast.TableName` from the normalized AST. Its fields are plain Go
strings (visible in parse.go: `name.Catalog = *n.Catalogname` assigns a
dereferenced `string` into the field), so an unset field is the zero
value `""`. -/
structure TableName where
  Catalog : String := ""
  Schema : String := ""
  Name : String := ""
deriving DecidableEq, Repr

/-- `ast.TypeName`: only its `Name` field is used by parse.go. -/
structure TypeName where
  Name : String
deriving DecidableEq, Repr

/-- `ast.ColumnDef` as built by parse.go: column name, type name
(a pointer in Go, always set here), and nullability. -/
structure ColumnDef where
  Colname : String
  TypeName : TypeName
  IsNotNull : Bool
deriving DecidableEq, Repr

/-- The `ast.AT_*` subtype tags that parse.go produces. -/
inductive AlterTableType where
  | AT_AddColumn
  | AT_AlterColumnType
  | AT_DropColumn
  | AT_DropNotNull
  | AT_SetNotNull
deriving DecidableEq, Repr

/-- `ast.AlterTableCmd`: `Name` is `*string` in Go (hence `Option`),
`Def` is `*ColumnDef` (nil unless the subtype carries a column). -/
structure AlterTableCmd where
  Subtype : AlterTableType
  Name : Option String
  MissingOk : Bool
  Def : Option ColumnDef := none
deriving DecidableEq, Repr

/-- `ast.AlterTableStmt`: the `Cmds` field is an `ast.List` whose items
are always `*ast.AlterTableCmd` here, embedded as a typed list. -/
structure AlterTableStmt where
  Table : TableName
  Cmds : List AlterTableCmd
deriving DecidableEq, Repr

/-- `ast.CreateTableStmt` as built by parse.go. -/
structure CreateTableStmt where
  Name : TableName
  IfNotExists : Bool
  Cols : List ColumnDef := []
deriving DecidableEq, Repr

/-- `ast.DropTableStmt` as built by parse.go. -/
structure DropTableStmt where
  IfExists : Bool
  Tables : List TableName := []
deriving DecidableEq, Repr

/-- The subset of `ast.Node` that `translate` can return. -/
inductive Node where
  | alterTableStmt (s : AlterTableStmt)
  | createTableStmt (s : CreateTableStmt)
  | dropTableStmt (s : DropTableStmt)
deriving DecidableEq, Repr

/-- `ast.RawStmt`: the wrapper placed around each translated node. -/
structure RawStmt where
  Stmt : Node
deriving DecidableEq, Repr

/-- `ast.Statement`: the element type of `Parse`'s output slice. -/
structure Statement where
  Raw : RawStmt
deriving DecidableEq, Repr

end ast

namespace nodes

/-- The `pg_query_go` constraint-type tags relevant to nullability;
every other tag is collapsed into `other` with its numeric value. -/
inductive ConstrType where
  | CONSTR_NOTNULL
  | CONSTR_PRIMARY
  | other (tag : Nat)
deriving DecidableEq, Repr

/-- The `pg_query_go` ALTER TABLE subtype tags that parse.go matches on;
every other tag is collapsed into `other` with its numeric value. -/
inductive AlterTableType where
  | AT_AddColumn
  | AT_AlterColumnType
  | AT_DropColumn
  | AT_DropNotNull
  | AT_SetNotNull
  | other (tag : Nat)
deriving DecidableEq, Repr

/-- The `pg_query_go` object-type tags: parse.go only tests for
`OBJECT_TABLE`; every other tag is collapsed into `other`. -/
inductive ObjectType where
  | OBJECT_TABLE
  | other (tag : Nat)
deriving DecidableEq, Repr

/-- `nodes.RangeVar`: the three name fields are `*string` in Go,
embedded as `Option String` (`none` = nil pointer). -/
structure RangeVar where
  Catalogname : Option String := none
  Schemaname : Option String := none
  Relname : Option String := none
deriving DecidableEq, Repr

/-- The subset of the `pg_query_go` node vocabulary that parse.go
dispatches on. Nested node lists (`nodes.List`) are embedded as
`List Node`; a `nodes.ColumnDef`'s `TypeName` field is `*nodes.TypeName`
in Go and is embedded by its only used component, the `Names` item list,
wrapped in `Option` for the pointer. Every node kind the source does not
name is represented by `otherNode`, carrying the Go runtime type
description used by `%T` formatting. -/
inductive Node where
  | strNode (str : String)
  | listNode (items : List Node)
  | rangeVar (rv : RangeVar)
  | rawStmt (stmt : Node)
  | columnDef (colname : Option String) (typeNames : Option (List Node))
      (constraints : List Node)
  | constraintNode (contype : ConstrType)
  | alterTableCmd (subtype : AlterTableType) (name : Option String)
      (defn : Node) (missingOk : Bool)
  | alterTableStmt (relation : Option RangeVar) (cmds : List Node)
  | createStmt (relation : Option RangeVar) (tableElts : List Node)
      (ifNotExists : Bool)
  | dropStmt (objects : List Node) (removeType : ObjectType) (missingOk : Bool)
  | otherNode (typeDescr : String)
deriving Repr

/-- The Go runtime type description of a node, as `fmt`'s `%T` verb
prints it. -/
def Node.typeDescr : Node → String
  | .strNode _ => "nodes.String"
  | .listNode _ => "nodes.List"
  | .rangeVar _ => "nodes.RangeVar"
  | .rawStmt _ => "nodes.RawStmt"
  | .columnDef .. => "nodes.ColumnDef"
  | .constraintNode _ => "nodes.Constraint"
  | .alterTableCmd .. => "nodes.AlterTableCmd"
  | .alterTableStmt .. => "nodes.AlterTableStmt"
  | .createStmt .. => "nodes.CreateStmt"
  | .dropStmt .. => "nodes.DropStmt"
  | .otherNode d => d

end nodes

/-- The result of a Go call that returns `(T, error)`: `ok` models
`(v, nil)`, `err` models `return nil, err` (so no value accompanies the
error), and `panic` models a runtime panic that unwinds the call. -/
inductive GoResult (α : Type) where
  | ok (val : α)
  | err (msg : String)
  | panic (msg : String)
deriving DecidableEq, Repr

/-- Sequencing of Go statements: an error return or a panic aborts the
rest of the function. -/
def GoResult.bind {α β : Type} : GoResult α → (α → GoResult β) → GoResult β
  | .ok a, f => f a
  | .err e, _ => .err e
  | .panic m, _ => .panic m

/-- Dereference of a Go pointer (`*p`): panics when the pointer is nil. -/
def deref {α : Type} : Option α → GoResult α
  | some a => .ok a
  | none => .panic "runtime error: invalid memory address or nil pointer dereference"

namespace postgresql

open nodes

/-- `stringSlice` (parse.go): collects the `Str` of every `nodes.String`
item of a list, skipping items of any other kind, in order. -/
def stringSlice (list : List Node) : List String :=
  list.filterMap fun item =>
    match item with
    | .strNode s => some s
    | _ => none

/-- `join` (parse.go): `strings.Join(stringSlice(list), sep)`. -/
def join (list : List Node) (sep : String) : String :=
  String.intercalate sep (stringSlice list)

/-- `parseTableName` (parse.go): resolves a qualified-name node into an
`ast.TableName`. A `nodes.List` is split into its string parts and
dispatched on the part count; a `nodes.RangeVar` has its present fields
copied; any other node kind is an `unexpected node type` error. -/
def parseTableName : Node → GoResult ast.TableName
  | .listNode items =>
    let parts := stringSlice items
    match parts with
    | [p0] => .ok { Name := p0 }
    | [p0, p1] => .ok { Schema := p0, Name := p1 }
    | [p0, p1, p2] => .ok { Catalog := p0, Schema := p1, Name := p2 }
    | _ => .err ("invalid table name: " ++ join items ".")
  | .rangeVar rv =>
    let name : ast.TableName := {}
    let name := match rv.Catalogname with
      | some c => { name with Catalog := c }
      | none => name
    let name := match rv.Schemaname with
      | some s => { name with Schema := s }
      | none => name
    let name := match rv.Relname with
      | some r => { name with Name := r }
      | none => name
    .ok name
  | n => .err ("unexpected node type: " ++ n.typeDescr)

/-- Modelled from the spec: the body of `isNotNull` is not under src/
(parse.go only calls it, at three sites). Per the spec, `isNotNull` is
true exactly when the column's constraint list contains an explicit
NOT-NULL constraint or a PRIMARY KEY constraint, and false otherwise. -/
def isNotNull (constraints : List Node) : Bool :=
  constraints.any fun c =>
    match c with
    | .constraintNode ct => ct = .CONSTR_NOTNULL || ct = .CONSTR_PRIMARY
    | _ => false

/-- The Go type assertion `def.(nodes.ColumnDef)` (no comma-ok form):
yields the column-definition components, or panics on any other node. -/
def asColumnDef : Node → GoResult (Option String × Option (List Node) × List Node)
  | .columnDef colname typeNames constraints => .ok (colname, typeNames, constraints)
  | n => .panic ("interface conversion: nodes.Node is " ++ n.typeDescr ++ ", not nodes.ColumnDef")

/-- One iteration of `translate`'s ALTER TABLE command switch
(parse.go, the `switch cmd.Subtype` block): a supported subtype yields
`some` command (AddColumn / AlterColumnType first assert the `Def`
payload to a `nodes.ColumnDef` and dereference its `Colname` and
`TypeName` pointers); any other subtype hits `default: continue`,
yielding `none`. -/
def translateAlterCmd (subtype : AlterTableType) (name : Option String)
    (defn : Node) (missingOk : Bool) : GoResult (Option ast.AlterTableCmd) :=
  match subtype with
  | .AT_AddColumn =>
    GoResult.bind (asColumnDef defn) fun d =>
    GoResult.bind (deref d.1) fun colname =>
    GoResult.bind (deref d.2.1) fun typeNames =>
    .ok (some { Subtype := .AT_AddColumn, Name := name, MissingOk := missingOk,
                Def := some { Colname := colname,
                              TypeName := { Name := join typeNames "." },
                              IsNotNull := isNotNull d.2.2 } })
  | .AT_AlterColumnType =>
    GoResult.bind (asColumnDef defn) fun d =>
    GoResult.bind (deref d.1) fun colname =>
    GoResult.bind (deref d.2.1) fun typeNames =>
    .ok (some { Subtype := .AT_AlterColumnType, Name := name, MissingOk := missingOk,
                Def := some { Colname := colname,
                              TypeName := { Name := join typeNames "." },
                              IsNotNull := isNotNull d.2.2 } })
  | .AT_DropColumn => .ok (some { Subtype := .AT_DropColumn, Name := name, MissingOk := missingOk })
  | .AT_DropNotNull => .ok (some { Subtype := .AT_DropNotNull, Name := name, MissingOk := missingOk })
  | .AT_SetNotNull => .ok (some { Subtype := .AT_SetNotNull, Name := name, MissingOk := missingOk })
  | .other _ => .ok none

/-- The ALTER TABLE command loop of `translate` (parse.go): items that
are not `nodes.AlterTableCmd` fall through the outer type switch and are
skipped; supported commands are appended in order; a dropped command
(`none`) appends nothing. -/
def translateAlterCmds : List Node → GoResult (List ast.AlterTableCmd)
  | [] => .ok []
  | .alterTableCmd subtype name defn missingOk :: rest =>
    GoResult.bind (translateAlterCmd subtype name defn missingOk) fun item =>
    GoResult.bind (translateAlterCmds rest) fun items =>
    match item with
    | some i => .ok (i :: items)
    | none => .ok items
  | _ :: rest => translateAlterCmds rest

/-- The CREATE TABLE element loop of `translate` (parse.go): each
`nodes.ColumnDef` element becomes an `ast.ColumnDef` (dereferencing its
`Colname` and `TypeName` pointers, dot-joining the type name parts, and
computing nullability via `isNotNull`); elements of any other kind fall
through the type switch and contribute nothing. -/
def translateTableElts : List Node → GoResult (List ast.ColumnDef)
  | [] => .ok []
  | .columnDef colname typeNames constraints :: rest =>
    GoResult.bind (deref colname) fun cn =>
    GoResult.bind (deref typeNames) fun tns =>
    GoResult.bind (translateTableElts rest) fun cols =>
    .ok ({ Colname := cn, TypeName := { Name := join tns "." },
           IsNotNull := isNotNull constraints } :: cols)
  | _ :: rest => translateTableElts rest

/-- The DROP TABLE object loop of `translate` (parse.go): for each
object, only when the statement's `RemoveType` is `OBJECT_TABLE` the
object is resolved via `parseTableName` and appended; otherwise the
iteration appends nothing. -/
def translateDropObjects : List Node → ObjectType → GoResult (List ast.TableName)
  | [], _ => .ok []
  | obj :: rest, rt =>
    if rt = .OBJECT_TABLE then
      GoResult.bind (parseTableName obj) fun name =>
      GoResult.bind (translateDropObjects rest rt) fun names =>
      .ok (name :: names)
    else
      translateDropObjects rest rt

/-- `translate` (parse.go): per-statement dispatch. ALTER TABLE, CREATE
TABLE and DROP TABLE nodes are normalized (each first dereferences its
`*nodes.RangeVar` relation where one exists and resolves it via
`parseTableName`); every other node kind returns `(nil, nil)`, embedded
as `ok none`. -/
def translate : Node → GoResult (Option ast.Node)
  | .alterTableStmt relation cmds =>
    GoResult.bind (deref relation) fun rel =>
    GoResult.bind (parseTableName (.rangeVar rel)) fun name =>
    GoResult.bind (translateAlterCmds cmds) fun items =>
    .ok (some (.alterTableStmt { Table := name, Cmds := items }))
  | .createStmt relation tableElts ifNotExists =>
    GoResult.bind (deref relation) fun rel =>
    GoResult.bind (parseTableName (.rangeVar rel)) fun name =>
    GoResult.bind (translateTableElts tableElts) fun cols =>
    .ok (some (.createTableStmt { Name := name, IfNotExists := ifNotExists, Cols := cols }))
  | .dropStmt objects removeType missingOk =>
    GoResult.bind (translateDropObjects objects removeType) fun tables =>
    .ok (some (.dropTableStmt { IfExists := missingOk, Tables := tables }))
  | _ => .ok none

/-- Characterization of the statement kinds `translate` recognizes: the
three arms of its type switch (ALTER TABLE, CREATE TABLE, DROP TABLE);
every other node kind falls to the default arm. -/
def isSupportedKind : Node → Bool
  | .alterTableStmt .. => true
  | .createStmt .. => true
  | .dropStmt .. => true
  | _ => false

/-- The statement loop of `Parser.Parse` (parse.go): each element of the
external parser's statement list must be a `nodes.RawStmt` (otherwise
`expected RawStmt` is returned); its wrapped statement is translated,
and a non-nil result is wrapped in `ast.Statement`/`ast.RawStmt` and
appended, preserving order. -/
def parseStatements : List Node → GoResult (List ast.Statement)
  | [] => .ok []
  | .rawStmt inner :: rest =>
    GoResult.bind (translate inner) fun n =>
    GoResult.bind (parseStatements rest) fun stmts =>
    match n with
    | some node => .ok ({ Raw := { Stmt := node } } :: stmts)
    | none => .ok stmts
  | other :: _ => .err ("expected RawStmt; got " ++ other.typeDescr)

/-- `Parser.Parse` (parse.go): reads the input (the outcome of
`ioutil.ReadAll` is the `readResult` argument), hands the contents to
the external parser `pg.Parse` (the black-box `pgParse` argument, whose
result is the top-level statement list), and runs the statement loop; a
failure of either external step is returned as that error. -/
def Parse (readResult : Except String String)
    (pgParse : String → Except String (List Node)) : GoResult (List ast.Statement) :=
  match readResult with
  | .error e => .err e
  | .ok contents =>
    match pgParse contents with
    | .error e => .err e
    | .ok statements => parseStatements statements

/-! Unfolding lemmas for the loop embeddings, one per iteration shape. -/

theorem bind_ok {α β : Type} (a : α) (f : α → GoResult β) :
    GoResult.bind (.ok a) f = f a := rfl

theorem bind_err {α β : Type} (e : String) (f : α → GoResult β) :
    GoResult.bind (.err e) f = .err e := rfl

theorem bind_panic {α β : Type} (m : String) (f : α → GoResult β) :
    GoResult.bind (.panic m) f = .panic m := rfl

theorem stringSlice_map_strNode (parts : List String) :
    stringSlice (parts.map Node.strNode) = parts := by
  induction parts with
  | nil => rfl
  | cons p ps ih =>
    show p :: stringSlice (ps.map Node.strNode) = p :: ps
    rw [ih]

theorem translateTableElts_cons_col (colname : Option String)
    (typeNames : Option (List Node)) (cs : List Node) (rest : List Node) :
    translateTableElts (Node.columnDef colname typeNames cs :: rest) =
      (GoResult.bind (deref colname) fun cn =>
       GoResult.bind (deref typeNames) fun tns =>
       GoResult.bind (translateTableElts rest) fun cols =>
       .ok ({ Colname := cn, TypeName := { Name := join tns "." },
              IsNotNull := isNotNull cs } :: cols)) := rfl

theorem translateTableElts_cons_other (e : Node) (rest : List Node)
    (he : ∀ cn tns cs, e ≠ Node.columnDef cn tns cs) :
    translateTableElts (e :: rest) = translateTableElts rest := by
  cases e with
  | columnDef a b c => exact absurd rfl (he a b c)
  | strNode s => rfl
  | listNode l => rfl
  | rangeVar rv => rfl
  | rawStmt s => rfl
  | constraintNode ct => rfl
  | alterTableCmd a b c d => rfl
  | alterTableStmt a b => rfl
  | createStmt a b c => rfl
  | dropStmt a b c => rfl
  | otherNode d => rfl

theorem translateAlterCmds_cons_cmd (subtype : AlterTableType) (name : Option String)
    (defn : Node) (missingOk : Bool) (rest : List Node) :
    translateAlterCmds (Node.alterTableCmd subtype name defn missingOk :: rest) =
      (GoResult.bind (translateAlterCmd subtype name defn missingOk) fun item =>
       GoResult.bind (translateAlterCmds rest) fun items =>
       match item with
       | some i => .ok (i :: items)
       | none => .ok items) := rfl

theorem translateAlterCmds_cons_other (e : Node) (rest : List Node)
    (he : ∀ st nm d m, e ≠ Node.alterTableCmd st nm d m) :
    translateAlterCmds (e :: rest) = translateAlterCmds rest := by
  cases e with
  | alterTableCmd a b c d => exact absurd rfl (he a b c d)
  | strNode s => rfl
  | listNode l => rfl
  | rangeVar rv => rfl
  | rawStmt s => rfl
  | columnDef a b c => rfl
  | constraintNode ct => rfl
  | alterTableStmt a b => rfl
  | createStmt a b c => rfl
  | dropStmt a b c => rfl
  | otherNode d => rfl

theorem translateDropObjects_cons (obj : Node) (rest : List Node) (rt : ObjectType) :
    translateDropObjects (obj :: rest) rt =
      (if rt = .OBJECT_TABLE then
        GoResult.bind (parseTableName obj) fun name =>
        GoResult.bind (translateDropObjects rest rt) fun names =>
        .ok (name :: names)
      else translateDropObjects rest rt) := rfl

theorem parseStatements_cons_raw (inner : Node) (rest : List Node) :
    parseStatements (Node.rawStmt inner :: rest) =
      (GoResult.bind (translate inner) fun n =>
       GoResult.bind (parseStatements rest) fun stmts =>
       match n with
       | some node => .ok ({ Raw := { Stmt := node } } :: stmts)
       | none => .ok stmts) := rfl

theorem parseStatements_cons_other (e : Node) (rest : List Node)
    (he : ∀ s, e ≠ Node.rawStmt s) :
    parseStatements (e :: rest) = .err ("expected RawStmt; got " ++ e.typeDescr) := by
  cases e with
  | rawStmt s => exact absurd rfl (he s)
  | strNode s => rfl
  | listNode l => rfl
  | rangeVar rv => rfl
  | columnDef a b c => rfl
  | constraintNode ct => rfl
  | alterTableCmd a b c d => rfl
  | alterTableStmt a b => rfl
  | createStmt a b c => rfl
  | dropStmt a b c => rfl
  | otherNode d => rfl

/-- Resolution of a `nodes.RangeVar` always succeeds, copying present
fields and leaving absent fields at the zero value `""`. -/
theorem parseTableName_rangeVar (rv : RangeVar) :
    parseTableName (.rangeVar rv) =
      .ok { Catalog := rv.Catalogname.getD "", Schema := rv.Schemaname.getD "",
            Name := rv.Relname.getD "" } := by
  rcases rv with ⟨c, s, r⟩
  rcases c <;> rcases s <;> rcases r <;> rfl

/-- A successful run of the CREATE TABLE element loop yields exactly the
normalized forms of the `nodes.ColumnDef` elements, in source order. -/
theorem translateTableElts_ok (elts : List Node) (cols : List ast.ColumnDef)
    (h : translateTableElts elts = .ok cols) :
    cols = elts.filterMap fun e =>
      match e with
      | .columnDef (some cn) (some tns) cs =>
        some { Colname := cn, TypeName := { Name := join tns "." },
               IsNotNull := isNotNull cs }
      | _ => none := by
  induction elts generalizing cols with
  | nil =>
    injection h with h
    simp [← h]
  | cons e rest ih =>
    cases e
    case columnDef colname typeNames cs =>
      rw [translateTableElts_cons_col] at h
      cases colname with
      | none => exact GoResult.noConfusion h
      | some cn =>
        cases typeNames with
        | none => exact GoResult.noConfusion h
        | some tns =>
          simp only [deref, bind_ok] at h
          cases hrest : translateTableElts rest with
          | ok tail =>
            rw [hrest, bind_ok] at h
            injection h with h
            subst h
            simp [List.filterMap_cons, ih tail hrest]
          | err e => rw [hrest, bind_err] at h; exact GoResult.noConfusion h
          | panic m => rw [hrest, bind_panic] at h; exact GoResult.noConfusion h
    all_goals
      rw [translateTableElts_cons_other _ _ (fun a b c hc => Node.noConfusion hc)] at h
      simpa [List.filterMap_cons] using ih cols h

/-- When the drop's target-object kind is not `OBJECT_TABLE`, the object
loop resolves nothing and cannot fail. -/
theorem translateDropObjects_nontable (objs : List Node) (rt : ObjectType)
    (h : rt ≠ .OBJECT_TABLE) : translateDropObjects objs rt = .ok [] := by
  induction objs with
  | nil => rfl
  | cons obj rest ih => rw [translateDropObjects_cons, if_neg h]; exact ih

/-- A successful run of the DROP TABLE object loop resolves every object
via `parseTableName`, pairing objects with results in source order. -/
theorem translateDropObjects_table (objs : List Node) (tables : List ast.TableName)
    (h : translateDropObjects objs .OBJECT_TABLE = .ok tables) :
    List.Forall₂ (fun o t => parseTableName o = .ok t) objs tables := by
  induction objs generalizing tables with
  | nil =>
    injection h with h
    subst h
    exact List.Forall₂.nil
  | cons obj rest ih =>
    rw [translateDropObjects_cons, if_pos rfl] at h
    cases hobj : parseTableName obj with
    | ok name =>
      rw [hobj, bind_ok] at h
      cases hrest : translateDropObjects rest .OBJECT_TABLE with
      | ok names =>
        rw [hrest, bind_ok] at h
        injection h with h
        subst h
        exact List.Forall₂.cons hobj (ih names hrest)
      | err e => rw [hrest, bind_err] at h; exact GoResult.noConfusion h
      | panic m => rw [hrest, bind_panic] at h; exact GoResult.noConfusion h
    | err e => rw [hobj, bind_err] at h; exact GoResult.noConfusion h
    | panic m => rw [hobj, bind_panic] at h; exact GoResult.noConfusion h

/-- An ALTER TABLE command list made entirely of unsupported subtypes
translates to the empty command list, without error. -/
theorem translateAlterCmds_all_unsupported (cmds : List Node)
    (h : ∀ c ∈ cmds, ∃ t nm d m, c = Node.alterTableCmd (.other t) nm d m) :
    translateAlterCmds cmds = .ok [] := by
  induction cmds with
  | nil => rfl
  | cons c rest ih =>
    obtain ⟨t, nm, d, m, rfl⟩ := h _ (List.mem_cons_self _ _)
    have hrest := ih (fun c hc => h c (List.mem_cons_of_mem _ hc))
    rw [translateAlterCmds_cons_cmd,
      show translateAlterCmd (.other t) nm d m = .ok none from rfl, bind_ok, hrest,
      bind_ok]

/-- A successful run of the statement loop yields exactly the wrapped
translations of the raw statements whose translation is non-nil, in
source order. -/
theorem parseStatements_ok (stmts : List Node) (l : List ast.Statement)
    (h : parseStatements stmts = .ok l) :
    l = stmts.filterMap fun s =>
      match s with
      | .rawStmt inner =>
        match translate inner with
        | .ok (some n) => some { Raw := { Stmt := n } }
        | _ => none
      | _ => none := by
  induction stmts generalizing l with
  | nil =>
    injection h with h
    simp [← h]
  | cons s rest ih =>
    cases s
    case rawStmt inner =>
      rw [parseStatements_cons_raw] at h
      cases htr : translate inner with
      | ok n =>
        rw [htr, bind_ok] at h
        cases hrest : parseStatements rest with
        | ok tail =>
          rw [hrest, bind_ok] at h
          cases n with
          | some node =>
            injection h with h
            subst h
            simp [List.filterMap_cons, htr, ih tail hrest]
          | none =>
            injection h with h
            subst h
            simp [List.filterMap_cons, htr, ih tail hrest]
        | err e => rw [hrest, bind_err] at h; exact GoResult.noConfusion h
        | panic m => rw [hrest, bind_panic] at h; exact GoResult.noConfusion h
      | err e => rw [htr, bind_err] at h; exact GoResult.noConfusion h
      | panic m => rw [htr, bind_panic] at h; exact GoResult.noConfusion h
    all_goals
      rw [parseStatements_cons_other _ _ (fun a hc => Node.noConfusion hc)] at h
      exact GoResult.noConfusion h

/-- A translation error anywhere in the statement list aborts the whole
loop with that error, provided the preceding statements translated
cleanly. -/
theorem parseStatements_append_err (pre : List Node) (lpre : List ast.Statement)
    (inner : Node) (rest : List Node) (e : String)
    (hpre : parseStatements pre = .ok lpre) (hinner : translate inner = .err e) :
    parseStatements (pre ++ Node.rawStmt inner :: rest) = .err e := by
  induction pre generalizing lpre with
  | nil => rw [List.nil_append, parseStatements_cons_raw, hinner, bind_err]
  | cons s pre' ih =>
    cases s
    case rawStmt i =>
      rw [parseStatements_cons_raw] at hpre
      cases htr : translate i with
      | ok n =>
        rw [htr, bind_ok] at hpre
        cases hrest : parseStatements pre' with
        | ok tail =>
          rw [List.cons_append, parseStatements_cons_raw, htr, bind_ok, ih tail hrest,
            bind_err]
        | err e2 => rw [hrest, bind_err] at hpre; exact GoResult.noConfusion hpre
        | panic m => rw [hrest, bind_panic] at hpre; exact GoResult.noConfusion hpre
      | err e2 => rw [htr, bind_err] at hpre; exact GoResult.noConfusion hpre
      | panic m => rw [htr, bind_panic] at hpre; exact GoResult.noConfusion hpre
    all_goals
      rw [parseStatements_cons_other _ _ (fun a hc => Node.noConfusion hc)] at hpre
      exact GoResult.noConfusion hpre

/-- C1: resolving a flat identifier list of string parts yields a
`TableName` with only the name set for 1 part, schema and name for 2
parts, catalog, schema and name for 3 parts (fields not listed stay at
the unset zero value); any other part count — 0 or 4 and more — fails
with the invalid-identifier error carrying the dot-joined original
text. -/
theorem parseTableName_flat_identifier_list (parts : List String) :
    parseTableName (.listNode (parts.map .strNode)) =
      match parts with
      | [p0] => .ok { Name := p0 }
      | [p0, p1] => .ok { Schema := p0, Name := p1 }
      | [p0, p1, p2] => .ok { Catalog := p0, Schema := p1, Name := p2 }
      | _ => .err ("invalid table name: " ++ String.intercalate "." parts) := by
  have hs := stringSlice_map_strNode parts
  rcases parts with _ | ⟨a, _ | ⟨b, _ | ⟨c, _ | ⟨d, rest⟩⟩⟩⟩
  · rfl
  · rfl
  · rfl
  · rfl
  · exact congrArg (fun l => GoResult.err ("invalid table name: " ++
      String.intercalate "." l)) hs

/-- C8 counterexample: a relation reference with an absent schema field
and one with a present empty-string schema field resolve to the very
same `TableName`, so the produced value does not distinguish an absent
field from an empty-string field. -/
theorem rangeVar_absent_equals_empty_string :
    parseTableName (.rangeVar { Schemaname := some "", Relname := some "t" }) =
      parseTableName (.rangeVar { Relname := some "t" }) ∧
    parseTableName (.rangeVar { Relname := some "t" }) =
      .ok { Catalog := "", Schema := "", Name := "t" } :=
  ⟨rfl, rfl⟩

/-- C8 amended: resolving a structured relation reference never fails
and copies each present field verbatim; each absent field is left at
the `TableName` zero value `""`, which is not distinguishable from a
present empty-string value. -/
theorem parseTableName_rangeVar_spec (rv : RangeVar) :
    parseTableName (.rangeVar rv) =
      .ok { Catalog := rv.Catalogname.getD "", Schema := rv.Schemaname.getD "",
            Name := rv.Relname.getD "" } :=
  parseTableName_rangeVar rv

/-- C2: `isNotNull` holds exactly when the constraint list contains an
explicit NOT-NULL or a PRIMARY KEY constraint, and this one predicate
decides the nullability of the column extracted at all three call
sites — CREATE TABLE columns, ALTER TABLE AddColumn and
AlterColumnType columns — with identical semantics. -/
theorem isNotNull_single_predicate (cs : List Node) (cn : String) (tns : List Node)
    (rest : List Node) (cols : List ast.ColumnDef) (nm : Option String) (mok : Bool)
    (itemAdd itemAlter : ast.AlterTableCmd)
    (hcols : translateTableElts (.columnDef (some cn) (some tns) cs :: rest) = .ok cols)
    (hadd : translateAlterCmd .AT_AddColumn nm (.columnDef (some cn) (some tns) cs) mok =
      .ok (some itemAdd))
    (halter : translateAlterCmd .AT_AlterColumnType nm
      (.columnDef (some cn) (some tns) cs) mok = .ok (some itemAlter)) :
    (isNotNull cs = true ↔ ∃ c ∈ cs, c = Node.constraintNode .CONSTR_NOTNULL ∨
      c = Node.constraintNode .CONSTR_PRIMARY) ∧
    cols.head? = some { Colname := cn, TypeName := { Name := join tns "." },
                        IsNotNull := isNotNull cs } ∧
    itemAdd.Def = some { Colname := cn, TypeName := { Name := join tns "." },
                         IsNotNull := isNotNull cs } ∧
    itemAlter.Def = itemAdd.Def := by
  have hA : itemAdd = { Subtype := .AT_AddColumn, Name := nm, MissingOk := mok,
                        Def := some { Colname := cn,
                                      TypeName := { Name := join tns "." },
                                      IsNotNull := isNotNull cs } } := by
    have h' : GoResult.ok (α := Option ast.AlterTableCmd)
        (some { Subtype := ast.AlterTableType.AT_AddColumn, Name := nm, MissingOk := mok,
                Def := some { Colname := cn, TypeName := { Name := join tns "." },
                              IsNotNull := isNotNull cs } }) = .ok (some itemAdd) := hadd
    injection h' with h''
    injection h'' with h'''
    exact h'''.symm
  have hB : itemAlter = { Subtype := .AT_AlterColumnType, Name := nm, MissingOk := mok,
                          Def := some { Colname := cn,
                                        TypeName := { Name := join tns "." },
                                        IsNotNull := isNotNull cs } } := by
    have h' : GoResult.ok (α := Option ast.AlterTableCmd)
        (some { Subtype := ast.AlterTableType.AT_AlterColumnType, Name := nm,
                MissingOk := mok,
                Def := some { Colname := cn, TypeName := { Name := join tns "." },
                              IsNotNull := isNotNull cs } }) = .ok (some itemAlter) := halter
    injection h' with h''
    injection h'' with h'''
    exact h'''.symm
  refine ⟨?_, ?_, by rw [hA], by rw [hA, hB]⟩
  · simp only [isNotNull, List.any_eq_true]
    constructor
    · rintro ⟨c, hc, hp⟩
      refine ⟨c, hc, ?_⟩
      cases c
      case constraintNode ct =>
        simp only [Bool.or_eq_true, decide_eq_true_eq] at hp
        rcases hp with h | h
        · exact Or.inl (by rw [h])
        · exact Or.inr (by rw [h])
      all_goals simp at hp
    · rintro ⟨c, hc, h | h⟩ <;> subst h <;> exact ⟨_, hc, by decide⟩
  · rw [translateTableElts_cons_col] at hcols
    simp only [deref, bind_ok] at hcols
    cases hrest : translateTableElts rest with
    | ok tail =>
      rw [hrest, bind_ok] at hcols
      injection hcols with h
      subst h
      rfl
    | err e => rw [hrest, bind_err] at hcols; exact GoResult.noConfusion hcols
    | panic m => rw [hrest, bind_panic] at hcols; exact GoResult.noConfusion hcols

/-- C3: a top-level statement node of an unsupported kind translates to
`(nil, nil)` — no statement and no error — and a document holding one
supported and one unsupported statement, in that order, parses to the
sequence holding only the supported statement's normalized form, with
no error. -/
theorem translate_unsupported_silent_skip (node s u : Node) (n : ast.Node)
    (hnode : isSupportedKind node = false) (hu : isSupportedKind u = false)
    (hs : translate s = .ok (some n)) :
    translate node = .ok none ∧
    parseStatements [.rawStmt s, .rawStmt u] = .ok [{ Raw := { Stmt := n } }] := by
  have hskip : ∀ v : Node, isSupportedKind v = false → translate v = .ok none := by
    intro v hv
    cases v <;> first | rfl | exact absurd hv (by simp [isSupportedKind])
  refine ⟨hskip node hnode, ?_⟩
  rw [parseStatements_cons_raw, hs, bind_ok, parseStatements_cons_raw, hskip u hu,
    bind_ok]
  rfl

/-- C4: `Parse` aborts as a whole — returning the error and no statement
sequence — when reading or external parsing fails; a successful
statement loop yields exactly the non-nil translations in source order;
and a translation error anywhere (after a cleanly translated prefix)
aborts the loop with that error. -/
theorem Parse_order_and_error_abort
    (eRead : String) (pgA : String → Except String (List Node))
    (contents : String) (pgB : String → Except String (List Node)) (eSyn : String)
    (stmts : List Node) (l : List ast.Statement)
    (pre : List Node) (lpre : List ast.Statement) (inner : Node) (rest : List Node)
    (eTr : String)
    (hpg : pgB contents = .error eSyn)
    (hok : parseStatements stmts = .ok l)
    (hpre : parseStatements pre = .ok lpre)
    (hinner : translate inner = .err eTr) :
    Parse (.error eRead) pgA = .err eRead ∧
    Parse (.ok contents) pgB = .err eSyn ∧
    l = stmts.filterMap (fun s =>
      match s with
      | .rawStmt w =>
        match translate w with
        | .ok (some n) => some { Raw := { Stmt := n } }
        | _ => none
      | _ => none) ∧
    parseStatements (pre ++ .rawStmt inner :: rest) = .err eTr := by
  refine ⟨rfl, ?_, parseStatements_ok stmts l hok,
    parseStatements_append_err pre lpre inner rest eTr hpre hinner⟩
  show (match pgB contents with
    | .error e => .err e
    | .ok statements => parseStatements statements) = GoResult.err eSyn
  rw [hpg]

/-- C5: translating a CREATE TABLE node resolves the target through the
Name Resolver, copies the IF NOT EXISTS flag verbatim, and produces
exactly the column-definition elements extracted in source order;
elements of any other kind contribute no column and cause no error. -/
theorem translate_create_table (rel : RangeVar) (elts : List Node) (ine : Bool)
    (name : ast.TableName) (cols : List ast.ColumnDef)
    (hname : parseTableName (.rangeVar rel) = .ok name)
    (hcols : translateTableElts elts = .ok cols) :
    translate (.createStmt (some rel) elts ine) =
      .ok (some (.createTableStmt { Name := name, IfNotExists := ine, Cols := cols })) ∧
    cols = elts.filterMap fun e =>
      match e with
      | .columnDef (some cn) (some tns) cs =>
        some { Colname := cn, TypeName := { Name := join tns "." },
               IsNotNull := isNotNull cs }
      | _ => none := by
  refine ⟨?_, translateTableElts_ok elts cols hcols⟩
  simp only [translate, deref, bind_ok, hname, hcols]

/-- C6: an ALTER TABLE command of an unsupported subtype is dropped from
the output command list entirely, without error; an ALTER TABLE
statement all of whose commands are unsupported still yields a valid
`AlterTableStmt` with an empty command list. -/
theorem alter_unsupported_commands_dropped (tag : Nat) (nm : Option String)
    (defn : Node) (mok : Bool) (rest : List Node)
    (rel : RangeVar) (cmds : List Node) (tbl : ast.TableName)
    (htbl : parseTableName (.rangeVar rel) = .ok tbl)
    (hcmds : ∀ c ∈ cmds, ∃ t n2 d m, c = Node.alterTableCmd (.other t) n2 d m) :
    translateAlterCmds (Node.alterTableCmd (.other tag) nm defn mok :: rest) =
      translateAlterCmds rest ∧
    translate (.alterTableStmt (some rel) cmds) =
      .ok (some (.alterTableStmt { Table := tbl, Cmds := [] })) := by
  constructor
  · rw [translateAlterCmds_cons_cmd,
      show translateAlterCmd (.other tag) nm defn mok = .ok none from rfl, bind_ok]
    cases h : translateAlterCmds rest <;> rfl
  · simp only [translate, deref, bind_ok, htbl,
      translateAlterCmds_all_unsupported cmds hcmds]

/-- C7: translating a DROP TABLE node carries the IF EXISTS flag, and
its table list is exactly the object references resolved by the Name
Resolver in source order when the drop's target-object kind is "table";
for any other target-object kind the objects are skipped without
error. -/
theorem translate_drop_table (objs : List Node) (rt : ObjectType) (mok : Bool)
    (tables : List ast.TableName)
    (objsT : List Node) (tablesT : List ast.TableName)
    (objsN : List Node) (rtN : ObjectType) (mokN : Bool)
    (hdrop : translateDropObjects objs rt = .ok tables)
    (htab : translateDropObjects objsT .OBJECT_TABLE = .ok tablesT)
    (hnot : rtN ≠ .OBJECT_TABLE) :
    translate (.dropStmt objs rt mok) =
      .ok (some (.dropTableStmt { IfExists := mok, Tables := tables })) ∧
    List.Forall₂ (fun o t => parseTableName o = .ok t) objsT tablesT ∧
    translate (.dropStmt objsN rtN mokN) =
      .ok (some (.dropTableStmt { IfExists := mokN, Tables := [] })) := by
  refine ⟨?_, translateDropObjects_table objsT tablesT htab, ?_⟩
  · simp only [translate, hdrop, bind_ok]
  · simp only [translate, translateDropObjects_nontable objsN rtN hnot, bind_ok]

/-- C9: for subtype AddColumn or AlterColumnType the definition payload
is asserted to be a `nodes.ColumnDef`: the assertion succeeds on every
column-definition payload, while a payload of any other shape makes the
translation panic — a defect-level fault, not a returned recoverable
error — and the panic propagates out of `translate` for the enclosing
ALTER TABLE statement. -/
theorem alter_payload_assertion (nm : Option String) (defn : Node) (mok : Bool)
    (cn : Option String) (tns : Option (List Node)) (cs : List Node) (rv : RangeVar)
    (h : ∀ a b c, defn ≠ Node.columnDef a b c) :
    translateAlterCmd .AT_AddColumn nm defn mok =
      .panic ("interface conversion: nodes.Node is " ++ defn.typeDescr ++
        ", not nodes.ColumnDef") ∧
    translateAlterCmd .AT_AlterColumnType nm defn mok =
      .panic ("interface conversion: nodes.Node is " ++ defn.typeDescr ++
        ", not nodes.ColumnDef") ∧
    asColumnDef (.columnDef cn tns cs) = .ok (cn, tns, cs) ∧
    translate (.alterTableStmt (some rv) [.alterTableCmd .AT_AddColumn nm defn mok]) =
      .panic ("interface conversion: nodes.Node is " ++ defn.typeDescr ++
        ", not nodes.ColumnDef") := by
  have hac : asColumnDef defn =
      .panic ("interface conversion: nodes.Node is " ++ defn.typeDescr ++
        ", not nodes.ColumnDef") := by
    cases defn
    case columnDef a b c => exact absurd rfl (h a b c)
    all_goals rfl
  have h1 : translateAlterCmd .AT_AddColumn nm defn mok =
      .panic ("interface conversion: nodes.Node is " ++ defn.typeDescr ++
        ", not nodes.ColumnDef") := by
    simp only [translateAlterCmd, hac, bind_panic]
  have h2 : translateAlterCmd .AT_AlterColumnType nm defn mok =
      .panic ("interface conversion: nodes.Node is " ++ defn.typeDescr ++
        ", not nodes.ColumnDef") := by
    simp only [translateAlterCmd, hac, bind_panic]
  have hcmd : translateAlterCmds [Node.alterTableCmd .AT_AddColumn nm defn mok] =
      .panic ("interface conversion: nodes.Node is " ++ defn.typeDescr ++
        ", not nodes.ColumnDef") := by
    rw [translateAlterCmds_cons_cmd, h1, bind_panic]
  refine ⟨h1, h2, rfl, ?_⟩
  simp only [translate, deref, bind_ok, parseTableName_rangeVar, hcmd, bind_panic]

/-- C10: a DROP statement whose target-object kind is not "table" is not
skipped: it translates to a non-nil `DropTableStmt` carrying the IF
EXISTS flag with an empty table list, and therefore still appears in
`Parse`'s output sequence rather than vanishing like an unsupported
statement kind. -/
theorem drop_nontable_statement_kept (objs : List Node) (rt : ObjectType) (mok : Bool)
    (h : rt ≠ .OBJECT_TABLE) :
    translate (.dropStmt objs rt mok) =
      .ok (some (.dropTableStmt { IfExists := mok, Tables := [] })) ∧
    parseStatements [.rawStmt (.dropStmt objs rt mok)] =
      .ok [{ Raw := { Stmt := .dropTableStmt { IfExists := mok, Tables := [] } } }] := by
  have h1 : translate (.dropStmt objs rt mok) =
      .ok (some (.dropTableStmt { IfExists := mok, Tables := [] })) := by
    simp only [translate, translateDropObjects_nontable objs rt h, bind_ok]
  refine ⟨h1, ?_⟩
  rw [parseStatements_cons_raw, h1, bind_ok]
  rfl

/-- Witness for C2 at a concrete primary-key column. -/
theorem isNotNull_single_predicate_witness :
    (isNotNull [Node.constraintNode .CONSTR_PRIMARY] = true ↔
      ∃ c ∈ [Node.constraintNode ConstrType.CONSTR_PRIMARY],
        c = Node.constraintNode .CONSTR_NOTNULL ∨
        c = Node.constraintNode .CONSTR_PRIMARY) ∧
    ([⟨"id", ⟨"int"⟩, true⟩] : List ast.ColumnDef).head? = some ⟨"id", ⟨"int"⟩, true⟩ ∧
    (⟨.AT_AddColumn, none, false, some ⟨"id", ⟨"int"⟩, true⟩⟩ : ast.AlterTableCmd).Def =
      some ⟨"id", ⟨"int"⟩, true⟩ ∧
    (⟨.AT_AlterColumnType, none, false, some ⟨"id", ⟨"int"⟩, true⟩⟩ : ast.AlterTableCmd).Def =
      (⟨.AT_AddColumn, none, false, some ⟨"id", ⟨"int"⟩, true⟩⟩ : ast.AlterTableCmd).Def :=
  isNotNull_single_predicate [.constraintNode .CONSTR_PRIMARY] "id" [.strNode "int"] []
    [⟨"id", ⟨"int"⟩, true⟩] none false
    ⟨.AT_AddColumn, none, false, some ⟨"id", ⟨"int"⟩, true⟩⟩
    ⟨.AT_AlterColumnType, none, false, some ⟨"id", ⟨"int"⟩, true⟩⟩
    rfl rfl rfl

/-- Witness for C3: a CREATE TABLE statement followed by an unsupported
statement parses to the single normalized CREATE TABLE. -/
theorem translate_unsupported_silent_skip_witness :
    translate (.otherNode "nodes.SelectStmt") = .ok none ∧
    parseStatements [.rawStmt (.createStmt (some { Relname := some "t" }) [] false),
        .rawStmt (.otherNode "nodes.SelectStmt")] =
      .ok [{ Raw := { Stmt := .createTableStmt { Name := { Name := "t" },
                                                 IfNotExists := false } } }] :=
  translate_unsupported_silent_skip (.otherNode "nodes.SelectStmt")
    (.createStmt (some { Relname := some "t" }) [] false)
    (.otherNode "nodes.SelectStmt")
    (.createTableStmt { Name := { Name := "t" }, IfNotExists := false })
    rfl rfl rfl

/-- Witness for C4 at concrete read, syntax and translation failures. -/
theorem Parse_order_and_error_abort_witness :
    Parse (.error "read failed") (fun _ => .ok []) = .err "read failed" ∧
    Parse (.ok "SELECT 1") (fun _ => .error "syntax error at or near") =
      .err "syntax error at or near" ∧
    ([] : List ast.Statement) = [] ∧
    parseStatements [.rawStmt (.dropStmt [.listNode []] .OBJECT_TABLE false)] =
      .err "invalid table name: " :=
  Parse_order_and_error_abort "read failed" (fun _ => .ok []) "SELECT 1"
    (fun _ => .error "syntax error at or near") "syntax error at or near"
    [.rawStmt (.otherNode "nodes.SelectStmt")] []
    [] [] (.dropStmt [.listNode []] .OBJECT_TABLE false) [] "invalid table name: "
    rfl rfl rfl rfl

/-- Witness for C5: a CREATE TABLE with one column and one inline table
constraint yields exactly one normalized column. -/
theorem translate_create_table_witness :
    translate (.createStmt (some { Relname := some "t" })
        [.columnDef (some "a") (some [.strNode "int"]) [],
         .constraintNode .CONSTR_PRIMARY] true) =
      .ok (some (.createTableStmt { Name := { Name := "t" }, IfNotExists := true,
                                    Cols := [⟨"a", ⟨"int"⟩, false⟩] })) ∧
    ([⟨"a", ⟨"int"⟩, false⟩] : List ast.ColumnDef) = [⟨"a", ⟨"int"⟩, false⟩] :=
  translate_create_table { Relname := some "t" }
    [.columnDef (some "a") (some [.strNode "int"]) [], .constraintNode .CONSTR_PRIMARY]
    true { Name := "t" } [⟨"a", ⟨"int"⟩, false⟩] rfl rfl

/-- Witness for C6: an ALTER TABLE whose only command has an unsupported
subtype keeps the statement with an empty command list. -/
theorem alter_unsupported_commands_dropped_witness :
    translateAlterCmds
        [Node.alterTableCmd (.other 14) (some "c") (.otherNode "nodes.Expr") false] =
      .ok [] ∧
    translate (.alterTableStmt (some { Relname := some "t" })
        [.alterTableCmd (.other 14) (some "c") (.otherNode "nodes.Expr") false]) =
      .ok (some (.alterTableStmt { Table := { Name := "t" }, Cmds := [] })) :=
  alter_unsupported_commands_dropped 14 (some "c") (.otherNode "nodes.Expr") false []
    { Relname := some "t" }
    [.alterTableCmd (.other 14) (some "c") (.otherNode "nodes.Expr") false]
    { Name := "t" } rfl
    (fun c hc => ⟨14, some "c", .otherNode "nodes.Expr", false, by
      rw [List.mem_singleton] at hc; exact hc⟩)

/-- Witness for C7: DROP TABLE IF EXISTS over two names, order kept, and
a non-table drop resolving nothing. -/
theorem translate_drop_table_witness :
    translate (.dropStmt [.listNode [.strNode "a"], .listNode [.strNode "b"]]
        .OBJECT_TABLE true) =
      .ok (some (.dropTableStmt { IfExists := true,
                                  Tables := [{ Name := "a" }, { Name := "b" }] })) ∧
    List.Forall₂ (fun o t => parseTableName o = .ok t)
      [.listNode [.strNode "a"], .listNode [.strNode "b"]]
      [{ Name := "a" }, { Name := "b" }] ∧
    translate (.dropStmt [.listNode [.strNode "v"]] (.other 41) true) =
      .ok (some (.dropTableStmt { IfExists := true, Tables := [] })) :=
  translate_drop_table [.listNode [.strNode "a"], .listNode [.strNode "b"]]
    .OBJECT_TABLE true [{ Name := "a" }, { Name := "b" }]
    [.listNode [.strNode "a"], .listNode [.strNode "b"]]
    [{ Name := "a" }, { Name := "b" }]
    [.listNode [.strNode "v"]] (.other 41) true
    rfl rfl (by decide)

/-- Witness for C9: a Constraint node in the definition payload slot
makes AddColumn and AlterColumnType translation panic. -/
theorem alter_payload_assertion_witness :
    translateAlterCmd .AT_AddColumn none (.constraintNode .CONSTR_NOTNULL) false =
      .panic "interface conversion: nodes.Node is nodes.Constraint, not nodes.ColumnDef" ∧
    translateAlterCmd .AT_AlterColumnType none (.constraintNode .CONSTR_NOTNULL) false =
      .panic "interface conversion: nodes.Node is nodes.Constraint, not nodes.ColumnDef" ∧
    asColumnDef (.columnDef (some "c") (some [.strNode "int"]) []) =
      .ok (some "c", some [.strNode "int"], []) ∧
    translate (.alterTableStmt (some { Relname := some "t" })
        [.alterTableCmd .AT_AddColumn none (.constraintNode .CONSTR_NOTNULL) false]) =
      .panic "interface conversion: nodes.Node is nodes.Constraint, not nodes.ColumnDef" :=
  alter_payload_assertion none (.constraintNode .CONSTR_NOTNULL) false
    (some "c") (some [.strNode "int"]) [] { Relname := some "t" }
    (fun _ _ _ hc => Node.noConfusion hc)

/-- Witness for C10: a guarded DROP of a non-table object kind still
yields a statement in the output. -/
theorem drop_nontable_statement_kept_witness :
    translate (.dropStmt [.listNode [.strNode "ix"]] (.other 26) false) =
      .ok (some (.dropTableStmt { IfExists := false, Tables := [] })) ∧
    parseStatements [.rawStmt (.dropStmt [.listNode [.strNode "ix"]] (.other 26) false)] =
      .ok [{ Raw := { Stmt := .dropTableStmt { IfExists := false, Tables := [] } } }] :=
  drop_nontable_statement_kept [.listNode [.strNode "ix"]] (.other 26) false (by decide)

end postgresql
